import Mathlib

/-!
Shallow embedding of the SD-card FAT32 root-directory reader (src/main.c)
for an ATmega4809-class AVR target (16-bit `int`, 8-bit bytes, 32-bit
`uint32_t`), together with theorems settling the frozen claims about it.

Layers modelled:
  * byte / little-endian decoding helpers;
  * the FAT32 boot-sector parser `parse_fat32_info` and the
    cluster-to-sector mapping used by `main` (line 271 of src/main.c);
  * the directory-entry printer `print_dir_entry` / `print_filename`
    including the avr-libc `itoa(int, buf, 10)` truncation to 16-bit int;
  * the SPI byte-exchange layer and the SD-card driver
    (`sd_send_cmd`, `sd_init`, `sd_read_sector`) as a state machine over a
    transport oracle `resp : Nat → Nat` giving the MISO byte of the k-th
    exchange, recording a trace of chip-select and transfer events;
  * the orchestrator `main` as a trace of actions over an abstract driver
    environment.
-/

namespace SdFat

/-- 2^32, the modulus of C `uint32_t` arithmetic on this target. -/
def U32 : Nat := 4294967296

/-- Read one byte of a raw buffer (C `uint8_t` access: value is mod 256). -/
def byteAt (b : Nat → Nat) (i : Nat) : Nat := b i % 256

/-- Little-endian 16-bit decode at offset `i`, as built by the C idiom
`((uint16_t)p[i]) | (p[i+1] << 8)`. -/
def le16 (b : Nat → Nat) (i : Nat) : Nat :=
  byteAt b i ||| (byteAt b (i + 1) <<< 8)

/-- Little-endian 32-bit decode at offset `i`, as built by the C idiom
`p[i] | (p[i+1]<<8) | (p[i+2]<<16) | (p[i+3]<<24)`. -/
def le32 (b : Nat → Nat) (i : Nat) : Nat :=
  byteAt b i ||| (byteAt b (i + 1) <<< 8) ||| (byteAt b (i + 2) <<< 16) |||
    (byteAt b (i + 3) <<< 24)

theorem lor_shiftLeft_eq_add {a : Nat} (b n : Nat) (h : a < 2 ^ n) :
    a ||| (b <<< n) = a + 2 ^ n * b := by
  apply Nat.eq_of_testBit_eq
  intro j
  rw [Nat.testBit_lor, Nat.testBit_shiftLeft, Nat.add_comm a (2 ^ n * b),
    Nat.testBit_mul_pow_two_add b h j]
  by_cases hj : j < n
  · simp [hj, Nat.not_le_of_lt hj]
  · have hn : n ≤ j := Nat.le_of_not_lt hj
    have ha : a.testBit j = false := by
      apply Nat.testBit_lt_two_pow
      exact Nat.lt_of_lt_of_le h (Nat.pow_le_pow_right (by norm_num) hn)
    simp [hj, hn, ha]

theorem byteAt_lt (b : Nat → Nat) (i : Nat) : byteAt b i < 256 :=
  Nat.mod_lt _ (by norm_num)

theorem le16_eq_add (b : Nat → Nat) (i : Nat) :
    le16 b i = byteAt b i + 256 * byteAt b (i + 1) := by
  have h0 := byteAt_lt b i
  have l1 : byteAt b i < 2 ^ 8 := by omega
  have e1 := lor_shiftLeft_eq_add (byteAt b (i + 1)) 8 l1
  rw [le16, e1]
  norm_num

theorem le16_lt (b : Nat → Nat) (i : Nat) : le16 b i < 65536 := by
  rw [le16_eq_add]
  have h1 := byteAt_lt b i
  have h2 := byteAt_lt b (i + 1)
  omega

theorem le32_eq_add (b : Nat → Nat) (i : Nat) :
    le32 b i = byteAt b i + 256 * byteAt b (i + 1) + 65536 * byteAt b (i + 2)
      + 16777216 * byteAt b (i + 3) := by
  have h0 := byteAt_lt b i
  have h1 := byteAt_lt b (i + 1)
  have h2 := byteAt_lt b (i + 2)
  have h3 := byteAt_lt b (i + 3)
  have l1 : byteAt b i < 2 ^ 8 := by omega
  have e1 := lor_shiftLeft_eq_add (byteAt b (i + 1)) 8 l1
  have l2 : byteAt b i + 2 ^ 8 * byteAt b (i + 1) < 2 ^ 16 := by omega
  have e2 := lor_shiftLeft_eq_add (byteAt b (i + 2)) 16 l2
  have l3 : byteAt b i + 2 ^ 8 * byteAt b (i + 1) + 2 ^ 16 * byteAt b (i + 2)
      < 2 ^ 24 := by omega
  have e3 := lor_shiftLeft_eq_add (byteAt b (i + 3)) 24 l3
  rw [le32, e1, e2, e3]
  norm_num

theorem le32_lt (b : Nat → Nat) (i : Nat) : le32 b i < U32 := by
  rw [le32_eq_add]
  have h0 := byteAt_lt b i
  have h1 := byteAt_lt b (i + 1)
  have h2 := byteAt_lt b (i + 2)
  have h3 := byteAt_lt b (i + 3)
  unfold U32
  omega

/-! ## FAT32 boot-sector parsing (src/main.c:183-193) -/

/-- Embedding of `fat32_info_t` (src/main.c:172-181); C integer widths are
reflected by the value ranges the parser below establishes. -/
structure Fat32Info where
  bytes_per_sector : Nat
  sectors_per_cluster : Nat
  reserved_sector_count : Nat
  num_fats : Nat
  fat_size : Nat
  root_cluster : Nat
  fat_start : Nat
  data_start : Nat
deriving Repr, DecidableEq

/-- Embedding of `parse_fat32_info` (src/main.c:183-193): fixed-offset
little-endian decodes of the BPB fields; `data_start` is computed in
C `uint32_t` arithmetic, hence the `% U32`. -/
def parse_fat32_info (sector : Nat → Nat) : Fat32Info :=
  let reserved := le16 sector 14
  let nfats := byteAt sector 16
  let fsz := le32 sector 36
  { bytes_per_sector := le16 sector 11
    sectors_per_cluster := byteAt sector 13
    reserved_sector_count := reserved
    num_fats := nfats
    fat_size := fsz
    root_cluster := le32 sector 44
    fat_start := reserved
    data_start := (reserved + nfats * fsz) % U32 }

/-- The cluster-to-sector mapping the orchestrator computes at
src/main.c:271: `data_start + sectors_per_cluster * (N - 2)` in `uint32_t`
arithmetic (`N - 2` wraps modulo 2^32, as C unsigned subtraction does). -/
def cluster_to_sector (info : Fat32Info) (n : Nat) : Nat :=
  (info.data_start + info.sectors_per_cluster * ((n + (U32 - 2)) % U32)) % U32

/-- Unsigned 32-bit subtraction `a - b` (two's-complement wraparound). -/
def u32sub (a b : Nat) : Nat := (a + (U32 - b % U32)) % U32

theorem natCast_u32sub (a b : Nat) (hb : b < U32) :
    ((u32sub a b : Nat) : ZMod U32) = (a : ZMod U32) - (b : ZMod U32) := by
  have hb' : b % U32 = b := Nat.mod_eq_of_lt hb
  have hle : b ≤ a + U32 := by omega
  have : u32sub a b = (a + U32 - b) % U32 := by
    unfold u32sub
    rw [hb']
    congr 1
    omega
  rw [this, ZMod.natCast_mod, Nat.cast_sub hle]
  push_cast [ZMod.natCast_self]
  ring

/-- The claim-C2 theorem below names this little-endian additive phrasing. -/
theorem parse_fat32_info_fields (sector : Nat → Nat) :
    (parse_fat32_info sector).fat_start = le16 sector 14 ∧
    (parse_fat32_info sector).num_fats = byteAt sector 16 ∧
    (parse_fat32_info sector).fat_size = le32 sector 36 := by
  refine ⟨rfl, rfl, rfl⟩

theorem cluster_to_sector_lt (info : Fat32Info) (n : Nat) :
    cluster_to_sector info n < U32 := by
  unfold cluster_to_sector
  exact Nat.mod_lt _ (by norm_num [U32])

theorem u32sub_lt (a b : Nat) : u32sub a b < U32 := by
  unfold u32sub
  exact Nat.mod_lt _ (by norm_num [U32])

theorem natCast_cluster_to_sector (info : Fat32Info) (n : Nat) :
    ((cluster_to_sector info n : Nat) : ZMod U32)
      = (info.data_start : ZMod U32)
        + (info.sectors_per_cluster : ZMod U32) * ((n : ZMod U32) - 2) := by
  have hsub : ((U32 - 2 : Nat) : ZMod U32) = -2 := by
    rw [Nat.cast_sub (by norm_num [U32])]
    simp [ZMod.natCast_self]
  unfold cluster_to_sector
  rw [ZMod.natCast_mod]
  push_cast [ZMod.natCast_mod]
  rw [hsub]
  ring

/-- Claim C2: `parse_fat32_info` sets `fat_start` to the little-endian
reserved-sector count decoded at offset 14 and `data_start` to
`reserved_sector_count + num_fats * fat_size` in unsigned 32-bit
arithmetic, each field decoded little-endian from its fixed offset
(num_fats at 16, fat_size at 36); when the sum does not overflow 2^32 the
derivation is exact. -/
theorem claim_C2 (sector : Nat → Nat) :
    (parse_fat32_info sector).fat_start = le16 sector 14 ∧
    (parse_fat32_info sector).reserved_sector_count = le16 sector 14 ∧
    (parse_fat32_info sector).data_start
      = (le16 sector 14 + byteAt sector 16 * le32 sector 36) % U32 ∧
    le16 sector 14 = byteAt sector 14 + 256 * byteAt sector 15 ∧
    le32 sector 36 = byteAt sector 36 + 256 * byteAt sector 37
      + 65536 * byteAt sector 38 + 16777216 * byteAt sector 39 ∧
    (le16 sector 14 + byteAt sector 16 * le32 sector 36 < U32 →
      (parse_fat32_info sector).data_start
        = (parse_fat32_info sector).reserved_sector_count
          + (parse_fat32_info sector).num_fats * (parse_fat32_info sector).fat_size) := by
  refine ⟨rfl, rfl, rfl, ?_, ?_, ?_⟩
  · have := le16_eq_add sector 14
    simpa using this
  · have := le32_eq_add sector 36
    simpa using this
  · intro h
    show (le16 sector 14 + byteAt sector 16 * le32 sector 36) % U32 = _
    rw [Nat.mod_eq_of_lt h]
    rfl

/-- Witness for claim C2 at the all-zero boot sector. -/
theorem claim_C2_witness :
    le16 (fun _ => 0) 14 + byteAt (fun _ => 0) 16 * le32 (fun _ => 0) 36 < U32 ∧
    (parse_fat32_info (fun _ => 0)).data_start
      = (parse_fat32_info (fun _ => 0)).reserved_sector_count
        + (parse_fat32_info (fun _ => 0)).num_fats
          * (parse_fat32_info (fun _ => 0)).fat_size := by
  refine ⟨by decide, (claim_C2 (fun _ => 0)).2.2.2.2.2 (by decide)⟩

/-- Claim C3: the cluster-to-sector mapping computed by the orchestrator
(src/main.c:271) on any parsed geometry is affine in the cluster number:
in unsigned 32-bit arithmetic, `sector(N+1) - sector(N)` equals
`sectors_per_cluster`, for every `N ≥ 2`. -/
theorem claim_C3 (sec : Nat → Nat) (n : Nat) (_hn : 2 ≤ n) :
    u32sub (cluster_to_sector (parse_fat32_info sec) (n + 1))
        (cluster_to_sector (parse_fat32_info sec) n)
      = (parse_fat32_info sec).sectors_per_cluster := by
  set info := parse_fat32_info sec with hinfo
  have hspc : info.sectors_per_cluster < U32 := by
    have : info.sectors_per_cluster = byteAt sec 13 := rfl
    rw [this]
    have := byteAt_lt sec 13
    unfold U32
    omega
  have hcast : ((u32sub (cluster_to_sector info (n + 1))
      (cluster_to_sector info n) : Nat) : ZMod U32)
      = ((info.sectors_per_cluster : Nat) : ZMod U32) := by
    rw [natCast_u32sub _ _ (cluster_to_sector_lt info n),
      natCast_cluster_to_sector, natCast_cluster_to_sector]
    push_cast
    ring
  have hmod := (ZMod.natCast_eq_natCast_iff _ _ _).mp hcast
  unfold Nat.ModEq at hmod
  rw [Nat.mod_eq_of_lt (u32sub_lt _ _), Nat.mod_eq_of_lt hspc] at hmod
  exact hmod

/-- Witness for claim C3 at the all-zero boot sector and cluster 2. -/
theorem claim_C3_witness :
    2 ≤ 2 ∧
    u32sub (cluster_to_sector (parse_fat32_info (fun _ => 0)) 3)
        (cluster_to_sector (parse_fat32_info (fun _ => 0)) 2)
      = (parse_fat32_info (fun _ => 0)).sectors_per_cluster := by
  exact ⟨by norm_num, claim_C3 (fun _ => 0) 2 (by norm_num)⟩

/-- C1 helper: the spec-side classification of a 32-byte slot (first byte
neither 0x00 nor 0xE5, attribute bit 0x08 clear), written from the spec's
words for the refinement comparison with `print_dir_entry`. -/
def RegularSlot (e : Nat → Nat) : Prop :=
  byteAt e 0 ≠ 0x00 ∧ byteAt e 0 ≠ 0xE5 ∧ byteAt e 11 &&& 0x08 = 0

instance (e : Nat → Nat) : Decidable (RegularSlot e) := by
  unfold RegularSlot
  infer_instance

/-! ## avr-libc itoa on a 16-bit-int target -/

/-- Conversion of a C `uint32_t` value to the 16-bit `int` of the AVR
target (avr-gcc wraps modulo 2^16, two's complement), as happens at the
`itoa(..)` call sites in src/main.c:226 and 266. -/
def toInt16 (n : Nat) : Int :=
  if n % 65536 < 32768 then ((n % 65536 : Nat) : Int)
  else ((n % 65536 : Nat) : Int) - 65536

/-- Little-endian decimal digits of `n` by repeated division by 10;
structural fuel (`fuel > n` always suffices). -/
def decDigitsCore : Nat → Nat → List Nat
  | 0, _ => []
  | fuel + 1, n => if n < 10 then [n] else n % 10 :: decDigitsCore fuel (n / 10)

def decDigits (n : Nat) : List Nat := decDigitsCore (n + 1) n

/-- ASCII codes of the decimal representation of `n`, most significant
digit first: the digit stream avr-libc `itoa` stores for a non-negative
value (digits generated least-significant-first, then reversed). -/
def decChars (n : Nat) : List Nat := ((decDigits n).reverse).map (· + 48)

/-- ASCII codes written by avr-libc `itoa(v, buf, 10)`: a leading `-`
(code 45) for a negative 16-bit value, then the decimal digits of the
magnitude. -/
def itoa10 (v : Int) : List Nat :=
  if v < 0 then 45 :: decChars v.natAbs else decChars v.toNat

/-- Value of a little-endian digit list. -/
def digitsVal (l : List Nat) : Nat := l.foldr (fun d acc => d + 10 * acc) 0

theorem digitsVal_decDigitsCore :
    ∀ fuel n, n < fuel → digitsVal (decDigitsCore fuel n) = n := by
  intro fuel
  induction fuel with
  | zero => intro n hn; exact absurd hn (Nat.not_lt_zero n)
  | succ f ih =>
    intro n hn
    unfold decDigitsCore
    by_cases h10 : n < 10
    · simp [h10, digitsVal]
    · have hdiv : n / 10 < f := by
        have := Nat.div_lt_self (by omega : 0 < n) (by norm_num : 1 < 10)
        omega
      simp only [h10, if_false, digitsVal, List.foldr_cons]
      have := ih (n / 10) hdiv
      unfold digitsVal at this
      rw [this]
      omega

theorem digitsVal_decDigits (n : Nat) : digitsVal (decDigits n) = n :=
  digitsVal_decDigitsCore (n + 1) n (Nat.lt_succ_self n)

theorem decChars_injective : Function.Injective decChars := by
  intro a b h
  unfold decChars at h
  have hmap : Function.Injective (fun d : Nat => d + 48) := by
    intro x y hxy
    exact Nat.add_right_cancel hxy
  have h2 : (decDigits a).reverse = (decDigits b).reverse :=
    List.map_injective_iff.mpr hmap h
  have h3 : decDigits a = decDigits b := List.reverse_injective h2
  have va := digitsVal_decDigits a
  have vb := digitsVal_decDigits b
  rw [← va, ← vb, h3]

theorem decChars_mem_ge (n c : Nat) (h : c ∈ decChars n) : 48 ≤ c := by
  unfold decChars at h
  rw [List.mem_map] at h
  obtain ⟨d, _, rfl⟩ := h
  omega

theorem decDigitsCore_ne_nil (fuel n : Nat) (h : n < fuel) :
    decDigitsCore fuel n ≠ [] := by
  cases fuel with
  | zero => omega
  | succ f =>
    unfold decDigitsCore
    by_cases h10 : n < 10 <;> simp [h10]

theorem decChars_ne_nil (n : Nat) : decChars n ≠ [] := by
  unfold decChars
  simp only [ne_eq, List.map_eq_nil_iff, List.reverse_eq_nil_iff]
  exact decDigitsCore_ne_nil (n + 1) n (Nat.lt_succ_self n)

/-! ## Directory records (src/main.c:196-230) -/

/-- The 32-byte slot starting at byte offset `32*i` of a block
(`&sector[i]` for `i` a multiple of 32, src/main.c:281). -/
def slotOf (block : Nat → Nat) (i : Nat) : Nat → Nat :=
  fun j => block (32 * i + j)

/-- Embedding of `print_filename` (src/main.c:196-213): the characters the
function stores into `name[]` before the terminating NUL — up to 8 base
bytes, stopping at the first space, then, when the extension field's first
byte is not a space, a literal dot (code 46) and up to 3 extension bytes,
stopping at the first space. -/
def print_filename (e : Nat → Nat) : List Nat :=
  (((List.range 8).map (byteAt e)).takeWhile (fun c => c != 32)) ++
    (if byteAt e 8 ≠ 32 then
      46 :: (([byteAt e 8, byteAt e 9, byteAt e 10]).takeWhile (fun c => c != 32))
    else [])

/-- The fixed diagnostic strings `main` writes to the output sink; the
FAT32 banner carries the `itoa`-rendered root-cluster number. -/
inductive Msg where
  | banner
  | initFailed
  | cardOk
  | mbrError
  | vbrError
  | fatDetected (rootClusterChars : List Nat)
  | rootDirError
  | rootDirHeader
deriving DecidableEq, Repr

/-- Externally visible actions of the program: a card-initialization
attempt, a sector read, a diagnostic message, or one directory entry
emitted to the output sink. -/
inductive Action where
  | initCard
  | readSector (sector : Nat)
  | msg (m : Msg)
  | emitEntry (name : List Nat) (attr : Nat) (size : List Nat)
deriving DecidableEq, Repr

/-- Embedding of `print_dir_entry` (src/main.c:215-230): slots whose first
byte is 0x00 or 0xE5, or whose attribute byte (offset 11) has bit 0x08
set, produce no output; otherwise one entry is emitted carrying the
NUL-truncated name buffer (`usart0_puts` stops at the first 0 byte), the
raw attribute byte, and the `itoa`-rendered size, the decoded 32-bit size
field being truncated to the 16-bit C `int` that `itoa` receives. -/
def print_dir_entry (e : Nat → Nat) : List Action :=
  if byteAt e 0 = 0x00 ∨ byteAt e 0 = 0xE5 ∨ byteAt e 11 &&& 0x08 ≠ 0 then []
  else [Action.emitEntry ((print_filename e).takeWhile (fun c => c != 0))
          (byteAt e 11) (itoa10 (toInt16 (le32 e 28)))]

/-- The root-directory loop of `main` (src/main.c:280-282): all 16
32-byte slots of the 512-byte block are passed to `print_dir_entry`, each
considered independently. -/
def dirActions (block : Nat → Nat) : List Action :=
  (List.range 16).flatMap (fun i => print_dir_entry (slotOf block i))

theorem print_dir_entry_eq_if (e : Nat → Nat) :
    print_dir_entry e = if RegularSlot e then
      [Action.emitEntry ((print_filename e).takeWhile (fun c => c != 0))
        (byteAt e 11) (itoa10 (toInt16 (le32 e 28)))]
    else [] := by
  unfold print_dir_entry RegularSlot
  by_cases h : byteAt e 0 = 0x00 ∨ byteAt e 0 = 0xE5 ∨ byteAt e 11 &&& 0x08 ≠ 0
  · rw [if_pos h, if_neg]
    tauto
  · rw [if_neg h, if_pos]
    tauto

/-- Claim C1: for every 512-byte root-directory block and every 32-byte
slot in it, a slot whose first byte is 0xE5, or whose attribute byte
(offset 11) has bit 0x08 set, never produces output; output arises
exactly from slots classified Regular, and the block's emission is the
concatenation of the Regular slots' records. -/
theorem claim_C1 (block : Nat → Nat) (i : Nat) (_hi : i < 16) :
    (byteAt (slotOf block i) 0 = 0xE5 → print_dir_entry (slotOf block i) = []) ∧
    (byteAt (slotOf block i) 11 &&& 0x08 ≠ 0 →
      print_dir_entry (slotOf block i) = []) ∧
    (print_dir_entry (slotOf block i) ≠ [] ↔ RegularSlot (slotOf block i)) ∧
    dirActions block = (List.range 16).flatMap (fun j =>
      if RegularSlot (slotOf block j) then
        [Action.emitEntry
          ((print_filename (slotOf block j)).takeWhile (fun c => c != 0))
          (byteAt (slotOf block j) 11)
          (itoa10 (toInt16 (le32 (slotOf block j) 28)))]
      else []) := by
  refine ⟨?_, ?_, ?_, ?_⟩
  · intro h
    simp [print_dir_entry, h]
  · intro h
    simp [print_dir_entry, h]
  · rw [print_dir_entry_eq_if]
    by_cases hr : RegularSlot (slotOf block i) <;> simp [hr]
  · unfold dirActions
    congr 1
    funext j
    exact print_dir_entry_eq_if (slotOf block j)

/-- Witness for claim C1 at the all-zero block and slot 0. -/
theorem claim_C1_witness :
    (0 : Nat) < 16 ∧
    (print_dir_entry (slotOf (fun _ => 0) 0) ≠ []
      ↔ RegularSlot (slotOf (fun _ => 0) 0)) :=
  ⟨by decide, (claim_C1 (fun _ => 0) 0 (by decide)).2.2.1⟩

/-- A 512-byte root-directory block whose slot 0 is entirely 0x00 (the
end-of-directory marker) while slot 1 (bytes 32..63) holds a Regular
record: name byte `A` then spaces, attribute 0, size 0. -/
def blockC9 : Nat → Nat := fun i =>
  if i = 32 then 65 else if 33 ≤ i ∧ i ≤ 42 then 32 else 0

/-- Counterexample to claim C9 as stated: in `blockC9` slot 0's first
byte is 0x00, yet decoding the block still emits a record, and that
record comes from slot 1 (the slot following the 0x00 slot) — the code
classifies every slot independently and does not treat a 0x00 first byte
as ending the block. -/
theorem claim_C9_counterexample :
    byteAt (slotOf blockC9 0) 0 = 0 ∧ byteAt (slotOf blockC9 1) 0 = 65 ∧
    print_dir_entry (slotOf blockC9 1) = [Action.emitEntry [65] 0 [48]] ∧
    dirActions blockC9 = [Action.emitEntry [65] 0 [48]] := by
  decide

/-- Claim C9 (amended): a slot whose first byte is 0x00 is never emitted,
but the decoder does not stop there and does not reclassify later slots:
a slot forming a Regular record always emits its record, and each slot's
output depends only on that slot's own 32 bytes — so a Regular slot that
follows a 0x00 slot is still emitted, whatever the earlier slots hold. -/
theorem claim_C9 (block : Nat → Nat) (i : Nat) (_hi : i < 16) :
    (byteAt (slotOf block i) 0 = 0 → print_dir_entry (slotOf block i) = []) ∧
    (RegularSlot (slotOf block i) → print_dir_entry (slotOf block i) ≠ []) ∧
    (∀ block' : Nat → Nat,
      (∀ j, j < 32 → block' (32 * i + j) = block (32 * i + j)) →
      print_dir_entry (slotOf block' i) = print_dir_entry (slotOf block i)) := by
  refine ⟨?_, ?_, ?_⟩
  · intro h0
    simp [print_dir_entry, h0]
  · intro hreg
    rw [print_dir_entry_eq_if, if_pos hreg]
    simp
  · intro block' hagree
    have hb : ∀ j, j < 32 →
        byteAt (slotOf block' i) j = byteAt (slotOf block i) j := by
      intro j hj
      unfold byteAt slotOf
      rw [hagree j hj]
    have hmap : (List.range 8).map (byteAt (slotOf block' i))
        = (List.range 8).map (byteAt (slotOf block i)) := by
      apply List.map_congr_left
      intro a ha
      have : a < 8 := List.mem_range.mp ha
      exact hb a (by omega)
    have h0 := hb 0 (by norm_num)
    have h8 := hb 8 (by norm_num)
    have h9 := hb 9 (by norm_num)
    have h10 := hb 10 (by norm_num)
    have h11 := hb 11 (by norm_num)
    have h28 := hb 28 (by norm_num)
    have h29 := hb (28 + 1) (by norm_num)
    have h30 := hb (28 + 2) (by norm_num)
    have h31 := hb (28 + 3) (by norm_num)
    simp only [print_dir_entry, print_filename, le32, hmap, h0, h8, h9, h10,
      h11, h28, h29, h30, h31]

/-- Witness for claim C9 (amended): the all-zero block's slot 0 emits
nothing, while `blockC9`'s Regular slot 1 does emit. -/
theorem claim_C9_witness :
    ((0 : Nat) < 16 ∧ byteAt (slotOf (fun _ => 0) 0) 0 = 0 ∧
      print_dir_entry (slotOf (fun _ => 0) 0) = []) ∧
    ((1 : Nat) < 16 ∧ RegularSlot (slotOf blockC9 1) ∧
      print_dir_entry (slotOf blockC9 1) ≠ []) :=
  ⟨⟨by decide, by decide, (claim_C9 (fun _ => 0) 0 (by decide)).1 (by decide)⟩,
   ⟨by decide, by decide, (claim_C9 blockC9 1 (by decide)).2.1 (by decide)⟩⟩

/-- Claim C10: the size printed for an emitted entry (and likewise the
root-cluster number in `main`) is the decoded 32-bit value passed through
the 16-bit C `int` parameter of `itoa`; the printed characters equal the
decimal representation of the decoded value exactly when it fits in the
non-negative `int` range (below 32768), and differ for every larger
value. -/
theorem claim_C10 (fsize : Nat) :
    (itoa10 (toInt16 fsize) = decChars fsize ↔ fsize < 32768) ∧
    (∀ e : Nat → Nat, print_dir_entry e = [] ∨
      print_dir_entry e
        = [Action.emitEntry ((print_filename e).takeWhile (fun c => c != 0))
            (byteAt e 11) (itoa10 (toInt16 (le32 e 28)))]) := by
  constructor
  · unfold toInt16
    by_cases hc : fsize % 65536 < 32768
    · rw [if_pos hc]
      have hv : ¬ ((fsize % 65536 : Nat) : Int) < 0 :=
        not_lt.mpr (Int.natCast_nonneg _)
      unfold itoa10
      rw [if_neg hv, Int.toNat_natCast]
      constructor
      · intro h
        have heq := decChars_injective h
        have hle : fsize % 65536 ≤ fsize := Nat.mod_le _ _
        omega
      · intro h
        rw [Nat.mod_eq_of_lt (by omega)]
    · rw [if_neg hc]
      have hr : fsize % 65536 < 65536 := Nat.mod_lt _ (by norm_num)
      have hv : ((fsize % 65536 : Nat) : Int) - 65536 < 0 := by
        have hcast : ((fsize % 65536 : Nat) : Int) < 65536 := by
          exact_mod_cast hr
        omega
      unfold itoa10
      rw [if_pos hv]
      constructor
      · intro h
        exfalso
        have h45 : (45 : Nat) ∈ decChars fsize := by
          rw [← h]
          exact List.mem_cons_self _ _
        have := decChars_mem_ge fsize 45 h45
        omega
      · intro h
        exfalso
        have : fsize % 65536 = fsize := Nat.mod_eq_of_lt (by omega)
        omega
  · intro e
    unfold print_dir_entry
    by_cases h : byteAt e 0 = 0x00 ∨ byteAt e 0 = 0xE5 ∨
        byteAt e 11 &&& 0x08 ≠ 0
    · left
      rw [if_pos h]
    · right
      rw [if_neg h]

/-! ## Session orchestrator (src/main.c:233-285) -/

/-- Abstract driver environment seen by the orchestrator: the outcome of
card initialization and, per sector address, the outcome of a block read
(the contract that `sd_init` / `sd_read_sector` implement). -/
structure Env where
  initOk : Bool
  read : Nat → Option (Nat → Nat)

/-- Embedding of `main` (src/main.c:233-285) as the ordered trace of
driver calls, sink messages, and emitted directory entries; after a
failing step the C code prints one message and spins in `while (1)`,
producing nothing further. -/
def main (env : Env) : List Action :=
  Action.msg Msg.banner :: Action.initCard ::
  if env.initOk = false then [Action.msg Msg.initFailed] else
  Action.msg Msg.cardOk :: Action.readSector 0 ::
  match env.read 0 with
  | none => [Action.msg Msg.mbrError]
  | some mbr =>
    let part_start := le32 mbr 454
    Action.readSector part_start ::
    match env.read part_start with
    | none => [Action.msg Msg.vbrError]
    | some vbr =>
      let fat32 := parse_fat32_info vbr
      Action.msg (Msg.fatDetected (itoa10 (toInt16 fat32.root_cluster))) ::
      let first_root_sector := cluster_to_sector fat32 fat32.root_cluster
      Action.readSector first_root_sector ::
      match env.read first_root_sector with
      | none => [Action.msg Msg.rootDirError]
      | some root => Action.msg Msg.rootDirHeader :: dirActions root

/-- Claim C4: the orchestrator short-circuits — if `sd_init` fails the
trace ends at the failure message with no sector read and no emission,
and each later step runs only when every previous step succeeded; on the
first failing read the trace ends at that phase's message. -/
theorem claim_C4 (env : Env) :
    (env.initOk = false →
      main env = [Action.msg Msg.banner, Action.initCard,
        Action.msg Msg.initFailed]) ∧
    (env.initOk = true → env.read 0 = none →
      main env = [Action.msg Msg.banner, Action.initCard,
        Action.msg Msg.cardOk, Action.readSector 0,
        Action.msg Msg.mbrError]) ∧
    (∀ mbr, env.initOk = true → env.read 0 = some mbr →
      env.read (le32 mbr 454) = none →
      main env = [Action.msg Msg.banner, Action.initCard,
        Action.msg Msg.cardOk, Action.readSector 0,
        Action.readSector (le32 mbr 454), Action.msg Msg.vbrError]) ∧
    (∀ mbr vbr, env.initOk = true → env.read 0 = some mbr →
      env.read (le32 mbr 454) = some vbr →
      env.read (cluster_to_sector (parse_fat32_info vbr)
        (parse_fat32_info vbr).root_cluster) = none →
      main env = [Action.msg Msg.banner, Action.initCard,
        Action.msg Msg.cardOk, Action.readSector 0,
        Action.readSector (le32 mbr 454),
        Action.msg (Msg.fatDetected
          (itoa10 (toInt16 (parse_fat32_info vbr).root_cluster))),
        Action.readSector (cluster_to_sector (parse_fat32_info vbr)
          (parse_fat32_info vbr).root_cluster),
        Action.msg Msg.rootDirError]) ∧
    (∀ mbr vbr root, env.initOk = true → env.read 0 = some mbr →
      env.read (le32 mbr 454) = some vbr →
      env.read (cluster_to_sector (parse_fat32_info vbr)
        (parse_fat32_info vbr).root_cluster) = some root →
      main env = [Action.msg Msg.banner, Action.initCard,
        Action.msg Msg.cardOk, Action.readSector 0,
        Action.readSector (le32 mbr 454),
        Action.msg (Msg.fatDetected
          (itoa10 (toInt16 (parse_fat32_info vbr).root_cluster))),
        Action.readSector (cluster_to_sector (parse_fat32_info vbr)
          (parse_fat32_info vbr).root_cluster),
        Action.msg Msg.rootDirHeader] ++ dirActions root) := by
  refine ⟨?_, ?_, ?_, ?_, ?_⟩
  · intro h
    simp [main, h]
  · intro h hm
    simp [main, h, hm]
  · intro mbr h hm hv
    simp [main, h, hm, hv]
  · intro mbr vbr h hm hv hroot
    simp [main, h, hm, hv, hroot]
  · intro mbr vbr root h hm hv hroot
    simp [main, h, hm, hv, hroot]

/-- Witness for claim C4: with a failing card, `main` stops after the
failure message; with a working card whose MBR read fails, it stops after
the MBR error message. -/
theorem claim_C4_witness :
    ((⟨false, fun _ => none⟩ : Env).initOk = false ∧
      main ⟨false, fun _ => none⟩
        = [Action.msg Msg.banner, Action.initCard,
           Action.msg Msg.initFailed]) ∧
    ((⟨true, fun _ => none⟩ : Env).initOk = true ∧
      (⟨true, fun _ => none⟩ : Env).read 0 = none ∧
      main ⟨true, fun _ => none⟩
        = [Action.msg Msg.banner, Action.initCard, Action.msg Msg.cardOk,
           Action.readSector 0, Action.msg Msg.mbrError]) :=
  ⟨⟨rfl, (claim_C4 _).1 rfl⟩, ⟨rfl, rfl, (claim_C4 _).2.1 rfl rfl⟩⟩

/-! ## SPI transport and SD-card driver (src/main.c:85-169) -/

/-- One visible event on the SPI bus: chip-select driven low or high, or
one full-duplex byte exchange with the given MOSI (sent) and MISO
(received) bytes. -/
inductive SpiEvent where
  | csLow
  | csHigh
  | xfer (mosi miso : Nat)
deriving DecidableEq, Repr

/-- Transport state: the environment's response stream (`resp k` is the
MISO byte of the k-th exchange since reset), the number of exchanges done
so far, and the recorded event trace. -/
structure SpiState where
  resp : Nat → Nat
  cursor : Nat
  trace : List SpiEvent

/-- `spi_transfer` (src/main.c:85-89): exchange one byte; the sent byte is
a C `uint8_t` (mod 256) and the received byte likewise. -/
def spi_transfer (data : Nat) (s : SpiState) : Nat × SpiState :=
  let r := s.resp s.cursor % 256
  (r, ⟨s.resp, s.cursor + 1, s.trace ++ [SpiEvent.xfer (data % 256) r]⟩)

/-- `SD_CS_LOW()` (src/main.c:32). -/
def csLowA (s : SpiState) : SpiState :=
  ⟨s.resp, s.cursor, s.trace ++ [SpiEvent.csLow]⟩

/-- `SD_CS_HIGH()` (src/main.c:33). -/
def csHighA (s : SpiState) : SpiState :=
  ⟨s.resp, s.cursor, s.trace ++ [SpiEvent.csHigh]⟩

/-- `spi_send_dummy` (src/main.c:91-93): clock `n` 0xFF filler bytes. -/
def spi_send_dummy : Nat → SpiState → SpiState
  | 0, s => s
  | n + 1, s => spi_send_dummy n (spi_transfer 255 s).2

/-- The response-poll loop of `sd_send_cmd` (src/main.c:105-110): read up
to `fuel` bytes (8 in the source), returning the first whose high bit is
clear, else the last byte read; `last` carries the byte from the previous
iteration. -/
def respWait : Nat → Nat → SpiState → Nat × SpiState
  | 0, last, s => (last, s)
  | fuel + 1, _, s =>
    let t := spi_transfer 255 s
    if t.1 &&& 128 = 0 then (t.1, t.2) else respWait fuel t.1 t.2

/-- `sd_send_cmd` (src/main.c:96-112): assert chip select, send the
6-byte frame — `0x40 | cmd`, the 4 argument bytes most significant first,
the caller's checksum — then poll up to 8 bytes for a response whose high
bit is clear. The argument is a C `uint32_t` (mod 2^32). -/
def sd_send_cmd (cmd arg crc : Nat) (s0 : SpiState) : Nat × SpiState :=
  let a := arg % U32
  let s1 := csLowA s0
  let s2 := (spi_transfer (64 ||| cmd) s1).2
  let s3 := (spi_transfer (a / 2 ^ 24) s2).2
  let s4 := (spi_transfer (a / 2 ^ 16) s3).2
  let s5 := (spi_transfer (a / 2 ^ 8) s4).2
  let s6 := (spi_transfer a s5).2
  let s7 := (spi_transfer crc s6).2
  respWait 8 0 s7

/-- The ACMD41 retry loop of `sd_init` (src/main.c:126-131): send CMD55
then CMD41, stopping when CMD41 answers 0x00; the do-while decrements a
16-bit counter initialized to 0xFFFF, so the body runs at most 65535
times, and exhausting it (`fuel` reaching 0) reports not-ready. -/
def acmd41Loop : Nat → SpiState → Bool × SpiState
  | 0, s => (false, s)
  | fuel + 1, s =>
    let s1 := (sd_send_cmd 55 0 0x65 s).2
    let c41 := sd_send_cmd 41 0x40000000 0x77 s1
    if c41.1 = 0 then (true, c41.2) else acmd41Loop fuel c41.2

/-- `sd_init` (src/main.c:114-140): deselect and clock 80 cycles, CMD0
expecting 0x01, CMD8 expecting 0x01 then four more clocked bytes, the
bounded ACMD41 loop, CMD58 expecting 0x00 then four more clocked bytes,
then deselect and one trailing filler byte. Returns 1 on success, 0 on
any failed check or an exhausted retry ceiling. -/
def sd_init (s0 : SpiState) : Nat × SpiState :=
  let s1 := spi_send_dummy 10 (csHighA s0)
  let c0 := sd_send_cmd 0 0 0x95 s1
  if c0.1 ≠ 1 then (0, c0.2) else
  let c8 := sd_send_cmd 8 0x1AA 0x87 c0.2
  if c8.1 ≠ 1 then (0, c8.2) else
  let s2 := (spi_transfer 255 (spi_transfer 255
    (spi_transfer 255 (spi_transfer 255 c8.2).2).2).2).2
  let al := acmd41Loop 65535 s2
  if al.1 = false then (0, al.2) else
  let c58 := sd_send_cmd 58 0 0xFD al.2
  if c58.1 ≠ 0 then (0, c58.2) else
  let s3 := (spi_transfer 255 (spi_transfer 255
    (spi_transfer 255 (spi_transfer 255 c58.2).2).2).2).2
  (1, (spi_transfer 255 (csHighA s3)).2)

/-- The data-token wait loop of `sd_read_sector` (src/main.c:150-155):
poll until a 0xFE token arrives; the do-while decrements a 16-bit counter
initialized to 0xFFFF, so at most 65535 polls happen, and exhaustion
(`fuel` reaching 0) reports failure. -/
def tokenWait : Nat → SpiState → Bool × SpiState
  | 0, s => (false, s)
  | fuel + 1, s =>
    let t := spi_transfer 255 s
    if t.1 = 254 then (true, t.2) else tokenWait fuel t.2

/-- The payload loop of `sd_read_sector` (src/main.c:162): clock `n`
bytes into the buffer. -/
def readBytes : Nat → SpiState → List Nat × SpiState
  | 0, s => ([], s)
  | n + 1, s =>
    let t := spi_transfer 255 s
    let rest := readBytes n t.2
    (t.1 :: rest.1, rest.2)

/-- `sd_read_sector` (src/main.c:142-169): select, CMD17 with the sector
address expecting 0x00, bounded wait for the 0xFE data token, 512 payload
bytes, 2 ignored CRC bytes, deselect plus one trailing filler. Every exit
path deselects and clocks one filler byte. -/
def sd_read_sector (sector : Nat) (s0 : SpiState) :
    Option (List Nat) × SpiState :=
  let s1 := csLowA s0
  let c17 := sd_send_cmd 17 sector 255 s1
  if c17.1 ≠ 0 then (none, (spi_transfer 255 (csHighA c17.2)).2) else
  let tw := tokenWait 65535 c17.2
  if tw.1 = false then (none, (spi_transfer 255 (csHighA tw.2)).2) else
  let rb := readBytes 512 tw.2
  let s2 := (spi_transfer 255 (spi_transfer 255 rb.2).2).2
  (some rb.1, (spi_transfer 255 (csHighA s2)).2)

/-- No chip-select deassertion occurs among these events. -/
def noCsHigh (l : List SpiEvent) : Prop := ∀ e ∈ l, e ≠ SpiEvent.csHigh

/-- The MOSI bytes of the exchange events in a trace, in order. -/
def mosis : List SpiEvent → List Nat
  | [] => []
  | SpiEvent.xfer m _ :: t => m :: mosis t
  | _ :: t => mosis t

theorem mosis_append (a b : List SpiEvent) :
    mosis (a ++ b) = mosis a ++ mosis b := by
  induction a with
  | nil => rfl
  | cons e t ih =>
    cases e <;> simp [mosis, ih]

theorem mosis_all255 (l : List SpiEvent)
    (h : ∀ e ∈ l, ∃ r, e = SpiEvent.xfer 255 r) :
    mosis l = List.replicate l.length 255 := by
  induction l with
  | nil => rfl
  | cons e t ih =>
    obtain ⟨r, rfl⟩ := h e (List.mem_cons_self _ _)
    simp only [mosis, List.length_cons, List.replicate_succ]
    rw [ih (fun e he => h e (List.mem_cons_of_mem _ he))]

theorem spi_transfer_fst (d : Nat) (s : SpiState) :
    (spi_transfer d s).1 = s.resp s.cursor % 256 := rfl

theorem spi_transfer_resp (d : Nat) (s : SpiState) :
    (spi_transfer d s).2.resp = s.resp := rfl

theorem spi_transfer_cursor (d : Nat) (s : SpiState) :
    (spi_transfer d s).2.cursor = s.cursor + 1 := rfl

theorem spi_transfer_trace (d : Nat) (s : SpiState) :
    (spi_transfer d s).2.trace
      = s.trace ++ [SpiEvent.xfer (d % 256) (s.resp s.cursor % 256)] := rfl

theorem spi_send_dummy_spec : ∀ (n : Nat) (s : SpiState),
    (spi_send_dummy n s).resp = s.resp ∧
    (spi_send_dummy n s).cursor = s.cursor + n ∧
    ∃ ext, (spi_send_dummy n s).trace = s.trace ++ ext ∧ noCsHigh ext := by
  intro n
  induction n with
  | zero =>
    intro s
    refine ⟨rfl, rfl, [], by simp [spi_send_dummy], ?_⟩
    intro e he
    simp at he
  | succ m ih =>
    intro s
    obtain ⟨hr, hc, ext, htr, hno⟩ := ih (spi_transfer 255 s).2
    refine ⟨hr, ?_, SpiEvent.xfer 255 (s.resp s.cursor % 256) :: ext, ?_, ?_⟩
    · rw [spi_send_dummy, hc, spi_transfer_cursor]
      omega
    · rw [spi_send_dummy, htr, spi_transfer_trace]
      simp
    · intro e he
      rcases List.mem_cons.mp he with h | h
      · subst h
        intro hcontra
        cases hcontra
      · exact hno e h

theorem respWait_spec : ∀ (fuel last : Nat) (s : SpiState),
    ∃ (n : Nat) (ext : List SpiEvent),
      (respWait fuel last s).2.resp = s.resp ∧
      (respWait fuel last s).2.cursor = s.cursor + n ∧
      (respWait fuel last s).2.trace = s.trace ++ ext ∧
      n ≤ fuel ∧ (1 ≤ fuel → 1 ≤ n) ∧ ext.length = n ∧
      (∀ e ∈ ext, ∃ r, e = SpiEvent.xfer 255 r) ∧
      (1 ≤ fuel → ∃ k, (respWait fuel last s).1 = s.resp k % 256) := by
  intro fuel
  induction fuel with
  | zero =>
    intro last s
    refine ⟨0, [], rfl, by simp [respWait], by simp [respWait], le_refl 0,
      by omega, rfl, ?_, by omega⟩
    intro e he
    simp at he
  | succ m ih =>
    intro last s
    by_cases hbit : (spi_transfer 255 s).1 &&& 128 = 0
    · refine ⟨1, [SpiEvent.xfer 255 (s.resp s.cursor % 256)], ?_, ?_, ?_, ?_, ?_, ?_, ?_, ?_⟩
      · rw [respWait]
        simp only [hbit, if_pos]
        rfl
      · rw [respWait]
        simp only [hbit, if_pos]
        rfl
      · rw [respWait]
        simp only [hbit, if_pos]
        exact spi_transfer_trace 255 s
      · omega
      · omega
      · rfl
      · intro e he
        rcases List.mem_cons.mp he with h | h
        · exact ⟨s.resp s.cursor % 256, h⟩
        · simp at h
      · intro _
        refine ⟨s.cursor, ?_⟩
        rw [respWait]
        simp only [hbit, if_pos]
        rfl
    · obtain ⟨n, ext, hr, hc, htr, hle, _, hlen, hx, hres⟩ :=
        ih (spi_transfer 255 s).1 (spi_transfer 255 s).2
      refine ⟨n + 1, SpiEvent.xfer 255 (s.resp s.cursor % 256) :: ext, ?_, ?_, ?_, ?_, ?_, ?_, ?_, ?_⟩
      · rw [respWait]
        simp only [hbit, if_neg, if_false]
        exact hr
      · rw [respWait]
        simp only [hbit, if_false]
        rw [hc, spi_transfer_cursor]
        omega
      · rw [respWait]
        simp only [hbit, if_false]
        rw [htr, spi_transfer_trace]
        simp
      · omega
      · omega
      · simp [hlen]
      · intro e he
        rcases List.mem_cons.mp he with h | h
        · exact ⟨s.resp s.cursor % 256, h⟩
        · exact hx e h
      · intro _
        by_cases hm : 1 ≤ m
        · obtain ⟨k, hk⟩ := hres hm
          refine ⟨k, ?_⟩
          rw [respWait]
          simp only [hbit, if_false]
          exact hk
        · have hm0 : m = 0 := by omega
          subst hm0
          refine ⟨s.cursor, ?_⟩
          rw [respWait]
          simp only [hbit, if_false]
          rw [respWait, spi_transfer_fst]

/-- The 7-event prefix `sd_send_cmd` deposits before polling: chip-select
low, then the 6-byte command frame with the environment's MISO bytes. -/
def cmdFrame (cmd arg crc : Nat) (s : SpiState) : List SpiEvent :=
  [SpiEvent.csLow,
   SpiEvent.xfer ((64 ||| cmd) % 256) (s.resp s.cursor % 256),
   SpiEvent.xfer (arg % U32 / 2 ^ 24 % 256) (s.resp (s.cursor + 1) % 256),
   SpiEvent.xfer (arg % U32 / 2 ^ 16 % 256) (s.resp (s.cursor + 2) % 256),
   SpiEvent.xfer (arg % U32 / 2 ^ 8 % 256) (s.resp (s.cursor + 3) % 256),
   SpiEvent.xfer (arg % U32 % 256) (s.resp (s.cursor + 4) % 256),
   SpiEvent.xfer (crc % 256) (s.resp (s.cursor + 5) % 256)]

theorem sd_send_cmd_def (cmd arg crc : Nat) (s : SpiState) :
    sd_send_cmd cmd arg crc s
      = respWait 8 0 ⟨s.resp, s.cursor + 6, s.trace ++ cmdFrame cmd arg crc s⟩ := by
  unfold sd_send_cmd csLowA spi_transfer cmdFrame
  simp [List.append_assoc]

theorem sd_send_cmd_spec (cmd arg crc : Nat) (s : SpiState) :
    ∃ (n : Nat) (polls : List SpiEvent),
      (sd_send_cmd cmd arg crc s).2.resp = s.resp ∧
      (sd_send_cmd cmd arg crc s).2.cursor = s.cursor + 6 + n ∧
      (sd_send_cmd cmd arg crc s).2.trace
        = s.trace ++ (cmdFrame cmd arg crc s ++ polls) ∧
      1 ≤ n ∧ n ≤ 8 ∧ polls.length = n ∧
      (∀ e ∈ polls, ∃ r, e = SpiEvent.xfer 255 r) ∧
      (∃ k, (sd_send_cmd cmd arg crc s).1 = s.resp k % 256) := by
  rw [sd_send_cmd_def]
  obtain ⟨n, ext, hr, hc, htr, hle, h1, hlen, hx, hres⟩ :=
    respWait_spec 8 0 ⟨s.resp, s.cursor + 6, s.trace ++ cmdFrame cmd arg crc s⟩
  refine ⟨n, ext, hr, ?_, ?_, h1 (by omega), hle, hlen, hx, ?_⟩
  · rw [hc]
  · rw [htr]
    simp [List.append_assoc]
  · obtain ⟨k, hk⟩ := hres (by omega)
    exact ⟨k, hk⟩

/-- Everything `sd_send_cmd` appends keeps chip select asserted. -/
theorem sd_send_cmd_noCsHigh (cmd arg crc : Nat) (s : SpiState)
    (polls : List SpiEvent) (hx : ∀ e ∈ polls, ∃ r, e = SpiEvent.xfer 255 r) :
    noCsHigh (cmdFrame cmd arg crc s ++ polls) := by
  intro e he
  rcases List.mem_append.mp he with h | h
  · unfold cmdFrame at h
    simp only [List.mem_cons, List.not_mem_nil, or_false] at h
    rcases h with h | h | h | h | h | h | h <;> subst h <;> intro hcon <;> cases hcon
  · obtain ⟨r, rfl⟩ := hx e h
    intro hcon
    cases hcon

theorem noCsHigh_nil : noCsHigh [] := by
  intro e he
  simp at he

theorem noCsHigh_append {a b : List SpiEvent} (ha : noCsHigh a)
    (hb : noCsHigh b) : noCsHigh (a ++ b) := by
  intro e he
  rcases List.mem_append.mp he with h | h
  · exact ha e h
  · exact hb e h

theorem noCsHigh_of_xfers {l : List SpiEvent}
    (h : ∀ e ∈ l, ∃ r, e = SpiEvent.xfer 255 r) : noCsHigh l := by
  intro e he
  obtain ⟨r, rfl⟩ := h e he
  intro hcon
  cases hcon

theorem acmd41Loop_spec : ∀ (fuel : Nat) (s : SpiState),
    ∃ ext, (acmd41Loop fuel s).2.resp = s.resp ∧
      (acmd41Loop fuel s).2.cursor ≤ s.cursor + 28 * fuel ∧
      (acmd41Loop fuel s).2.trace = s.trace ++ ext ∧ noCsHigh ext := by
  intro fuel
  induction fuel with
  | zero =>
    intro s
    exact ⟨[], rfl, by simp [acmd41Loop], by simp [acmd41Loop], noCsHigh_nil⟩
  | succ m ih =>
    intro s
    obtain ⟨n55, p55, h55r, h55c, h55t, _, h55n8, _, h55x, _⟩ :=
      sd_send_cmd_spec 55 0 0x65 s
    obtain ⟨n41, p41, h41r, h41c, h41t, _, h41n8, _, h41x, _⟩ :=
      sd_send_cmd_spec 41 0x40000000 0x77 (sd_send_cmd 55 0 0x65 s).2
    have hf55 := noCsHigh_append
      (sd_send_cmd_noCsHigh 55 0 0x65 s p55 h55x) noCsHigh_nil
    have hf41 := noCsHigh_append
      (sd_send_cmd_noCsHigh 41 0x40000000 0x77 (sd_send_cmd 55 0 0x65 s).2 p41 h41x)
      noCsHigh_nil
    simp only [List.append_nil] at hf55 hf41
    by_cases hres : (sd_send_cmd 41 0x40000000 0x77 (sd_send_cmd 55 0 0x65 s).2).1 = 0
    · refine ⟨(cmdFrame 55 0 0x65 s ++ p55) ++
        (cmdFrame 41 0x40000000 0x77 (sd_send_cmd 55 0 0x65 s).2 ++ p41),
        ?_, ?_, ?_, ?_⟩
      · rw [acmd41Loop]
        simp only [hres, if_pos]
        rw [h41r, h55r]
      · rw [acmd41Loop]
        simp only [hres, if_pos]
        rw [h41c, h55c]
        omega
      · rw [acmd41Loop]
        simp only [hres, if_pos]
        rw [h41t, h55t]
        simp [List.append_assoc]
      · exact noCsHigh_append hf55 hf41
    · obtain ⟨ext, hir, hic, hit, hino⟩ :=
        ih (sd_send_cmd 41 0x40000000 0x77 (sd_send_cmd 55 0 0x65 s).2).2
      refine ⟨((cmdFrame 55 0 0x65 s ++ p55) ++
        (cmdFrame 41 0x40000000 0x77 (sd_send_cmd 55 0 0x65 s).2 ++ p41)) ++ ext,
        ?_, ?_, ?_, ?_⟩
      · rw [acmd41Loop]
        simp only [hres, if_false, if_neg]
        rw [hir, h41r, h55r]
      · rw [acmd41Loop]
        simp only [hres, if_false, if_neg]
        have := hic
        rw [h41c, h55c] at this
        omega
      · rw [acmd41Loop]
        simp only [hres, if_false, if_neg]
        rw [hit, h41t, h55t]
        simp [List.append_assoc]
      · exact noCsHigh_append (noCsHigh_append hf55 hf41) hino

theorem acmd41Loop_stuck : ∀ (fuel : Nat) (s : SpiState),
    (∀ k, s.resp k % 256 ≠ 0) → (acmd41Loop fuel s).1 = false := by
  intro fuel
  induction fuel with
  | zero =>
    intro s _
    rfl
  | succ m ih =>
    intro s hs
    obtain ⟨n55, p55, h55r, _, _, _, _, _, _, _⟩ := sd_send_cmd_spec 55 0 0x65 s
    obtain ⟨n41, p41, h41r, _, _, _, _, _, _, hk⟩ :=
      sd_send_cmd_spec 41 0x40000000 0x77 (sd_send_cmd 55 0 0x65 s).2
    obtain ⟨k, hk⟩ := hk
    have hres : (sd_send_cmd 41 0x40000000 0x77 (sd_send_cmd 55 0 0x65 s).2).1 ≠ 0 := by
      rw [hk, h55r]
      exact hs k
    rw [acmd41Loop]
    simp only [hres, if_false, if_neg]
    apply ih
    intro k'
    rw [h41r, h55r]
    exact hs k'

theorem tokenWait_spec : ∀ (fuel : Nat) (s : SpiState),
    ∃ (n : Nat) (ext : List SpiEvent),
      (tokenWait fuel s).2.resp = s.resp ∧
      (tokenWait fuel s).2.cursor = s.cursor + n ∧
      (tokenWait fuel s).2.trace = s.trace ++ ext ∧
      n ≤ fuel ∧ (∀ e ∈ ext, ∃ r, e = SpiEvent.xfer 255 r) := by
  intro fuel
  induction fuel with
  | zero =>
    intro s
    refine ⟨0, [], rfl, by simp [tokenWait], by simp [tokenWait], le_refl 0, ?_⟩
    intro e he
    simp at he
  | succ m ih =>
    intro s
    by_cases htok : (spi_transfer 255 s).1 = 254
    · refine ⟨1, [SpiEvent.xfer 255 (s.resp s.cursor % 256)], ?_, ?_, ?_, by omega, ?_⟩
      · rw [tokenWait]
        simp only [htok, if_pos]
        rfl
      · rw [tokenWait]
        simp only [htok, if_pos]
        rfl
      · rw [tokenWait]
        simp only [htok, if_pos]
        exact spi_transfer_trace 255 s
      · intro e he
        rcases List.mem_cons.mp he with h | h
        · exact ⟨s.resp s.cursor % 256, h⟩
        · simp at h
    · obtain ⟨n, ext, hr, hc, htr, hle, hx⟩ := ih (spi_transfer 255 s).2
      refine ⟨n + 1, SpiEvent.xfer 255 (s.resp s.cursor % 256) :: ext,
        ?_, ?_, ?_, by omega, ?_⟩
      · rw [tokenWait]
        simp only [htok, if_false, if_neg]
        exact hr
      · rw [tokenWait]
        simp only [htok, if_false, if_neg]
        rw [hc, spi_transfer_cursor]
        omega
      · rw [tokenWait]
        simp only [htok, if_false, if_neg]
        rw [htr, spi_transfer_trace]
        simp
      · intro e he
        rcases List.mem_cons.mp he with h | h
        · exact ⟨s.resp s.cursor % 256, h⟩
        · exact hx e h

theorem tokenWait_noToken : ∀ (fuel : Nat) (s : SpiState),
    (∀ k, s.resp k % 256 ≠ 254) → (tokenWait fuel s).1 = false := by
  intro fuel
  induction fuel with
  | zero =>
    intro s _
    rfl
  | succ m ih =>
    intro s hs
    have htok : (spi_transfer 255 s).1 ≠ 254 := by
      rw [spi_transfer_fst]
      exact hs s.cursor
    rw [tokenWait]
    simp only [htok, if_false, if_neg]
    apply ih
    intro k
    rw [spi_transfer_resp]
    exact hs k

theorem readBytes_spec : ∀ (n : Nat) (s : SpiState),
    (readBytes n s).2.resp = s.resp ∧
    (readBytes n s).2.cursor = s.cursor + n ∧
    ∃ ext, (readBytes n s).2.trace = s.trace ++ ext ∧
      (∀ e ∈ ext, ∃ r, e = SpiEvent.xfer 255 r) := by
  intro n
  induction n with
  | zero =>
    refine fun s => ⟨rfl, rfl, [], by simp [readBytes], ?_⟩
    intro e he
    simp at he
  | succ m ih =>
    intro s
    obtain ⟨hr, hc, ext, htr, hx⟩ := ih (spi_transfer 255 s).2
    refine ⟨?_, ?_, SpiEvent.xfer 255 (s.resp s.cursor % 256) :: ext, ?_, ?_⟩
    · rw [readBytes]
      exact hr
    · rw [readBytes]
      simp only []
      rw [hc, spi_transfer_cursor]
      omega
    · rw [readBytes]
      simp only []
      rw [htr, spi_transfer_trace]
      simp
    · intro e he
      rcases List.mem_cons.mp he with h | h
      · exact ⟨s.resp s.cursor % 256, h⟩
      · exact hx e h

theorem csHighA_resp (s : SpiState) : (csHighA s).resp = s.resp := rfl

theorem csHighA_cursor (s : SpiState) : (csHighA s).cursor = s.cursor := rfl

theorem csHighA_trace (s : SpiState) :
    (csHighA s).trace = s.trace ++ [SpiEvent.csHigh] := rfl

theorem csLowA_resp (s : SpiState) : (csLowA s).resp = s.resp := rfl

theorem csLowA_cursor (s : SpiState) : (csLowA s).cursor = s.cursor := rfl

theorem csLowA_trace (s : SpiState) :
    (csLowA s).trace = s.trace ++ [SpiEvent.csLow] := rfl

/-- The four consecutive filler transfers in `sd_init` (src/main.c:123 and
135) form the same state transformation as four dummy clocks. -/
theorem quad_eq_dummy (x : SpiState) :
    (spi_transfer 255 (spi_transfer 255 (spi_transfer 255
      (spi_transfer 255 x).2).2).2).2 = spi_send_dummy 4 x := rfl

theorem sd_init_cursor (s : SpiState) :
    (sd_init s).2.cursor ≤ s.cursor + 1835041 := by
  have hch : (csHighA s).cursor = s.cursor := rfl
  obtain ⟨hdr, hdc, -⟩ := spi_send_dummy_spec 10 (csHighA s)
  obtain ⟨n0, p0, h0r, h0c, -, -, h0n8, -, -, -⟩ :=
    sd_send_cmd_spec 0 0 0x95 (spi_send_dummy 10 (csHighA s))
  obtain ⟨n8, p8, h8r, h8c, -, -, h8n8, -, -, -⟩ :=
    sd_send_cmd_spec 8 0x1AA 0x87
      (sd_send_cmd 0 0 0x95 (spi_send_dummy 10 (csHighA s))).2
  obtain ⟨hq1r, hq1c, -⟩ := spi_send_dummy_spec 4
    (sd_send_cmd 8 0x1AA 0x87
      (sd_send_cmd 0 0 0x95 (spi_send_dummy 10 (csHighA s))).2).2
  obtain ⟨alext, halr, halc, -, -⟩ := acmd41Loop_spec 65535
    (spi_send_dummy 4 (sd_send_cmd 8 0x1AA 0x87
      (sd_send_cmd 0 0 0x95 (spi_send_dummy 10 (csHighA s))).2).2)
  obtain ⟨n58, p58, h58r, h58c, -, -, h58n8, -, -, -⟩ :=
    sd_send_cmd_spec 58 0 0xFD
      (acmd41Loop 65535 (spi_send_dummy 4 (sd_send_cmd 8 0x1AA 0x87
        (sd_send_cmd 0 0 0x95 (spi_send_dummy 10 (csHighA s))).2).2)).2
  obtain ⟨hq2r, hq2c, -⟩ := spi_send_dummy_spec 4
    (sd_send_cmd 58 0 0xFD
      (acmd41Loop 65535 (spi_send_dummy 4 (sd_send_cmd 8 0x1AA 0x87
        (sd_send_cmd 0 0 0x95 (spi_send_dummy 10 (csHighA s))).2).2)).2).2
  have hfin : ((spi_transfer 255 (csHighA (spi_send_dummy 4
      (sd_send_cmd 58 0 0xFD
        (acmd41Loop 65535 (spi_send_dummy 4 (sd_send_cmd 8 0x1AA 0x87
          (sd_send_cmd 0 0 0x95
            (spi_send_dummy 10 (csHighA s))).2).2)).2).2))).2).cursor
      = (spi_send_dummy 4 (sd_send_cmd 58 0 0xFD
          (acmd41Loop 65535 (spi_send_dummy 4 (sd_send_cmd 8 0x1AA 0x87
            (sd_send_cmd 0 0 0x95
              (spi_send_dummy 10 (csHighA s))).2).2)).2).2).cursor + 1 := rfl
  simp only [sd_init, quad_eq_dummy]
  split
  · dsimp only
    omega
  · split
    · dsimp only
      omega
    · split
      · dsimp only
        omega
      · split
        · dsimp only
          omega
        · dsimp only
          omega

theorem sd_init_noReady (s : SpiState) (hs : ∀ k, s.resp k % 256 ≠ 0) :
    (sd_init s).1 = 0 := by
  obtain ⟨hdr, -, -⟩ := spi_send_dummy_spec 10 (csHighA s)
  obtain ⟨n0, p0, h0r, -, -, -, -, -, -, -⟩ :=
    sd_send_cmd_spec 0 0 0x95 (spi_send_dummy 10 (csHighA s))
  obtain ⟨n8, p8, h8r, -, -, -, -, -, -, -⟩ :=
    sd_send_cmd_spec 8 0x1AA 0x87
      (sd_send_cmd 0 0 0x95 (spi_send_dummy 10 (csHighA s))).2
  obtain ⟨hq1r, -, -⟩ := spi_send_dummy_spec 4
    (sd_send_cmd 8 0x1AA 0x87
      (sd_send_cmd 0 0 0x95 (spi_send_dummy 10 (csHighA s))).2).2
  have hstuck : (acmd41Loop 65535 (spi_send_dummy 4
      (sd_send_cmd 8 0x1AA 0x87
        (sd_send_cmd 0 0 0x95 (spi_send_dummy 10 (csHighA s))).2).2)).1
      = false := by
    apply acmd41Loop_stuck
    intro k
    rw [hq1r, h8r, h0r, hdr, csHighA_resp]
    exact hs k
  simp only [sd_init, quad_eq_dummy]
  by_cases h0 : (sd_send_cmd 0 0 0x95 (spi_send_dummy 10 (csHighA s))).1 ≠ 1
  · rw [if_pos h0]
  · rw [if_neg h0]
    by_cases h8 : (sd_send_cmd 8 0x1AA 0x87
        (sd_send_cmd 0 0 0x95 (spi_send_dummy 10 (csHighA s))).2).1 ≠ 1
    · rw [if_pos h8]
    · rw [if_neg h8, if_pos hstuck]

theorem sd_read_sector_cursor (sector : Nat) (s : SpiState) :
    (sd_read_sector sector s).2.cursor ≤ s.cursor + 66064 := by
  have hcl : (csLowA s).cursor = s.cursor := rfl
  obtain ⟨n17, p17, h17r, h17c, -, -, h17n8, -, -, -⟩ :=
    sd_send_cmd_spec 17 sector 255 (csLowA s)
  have hf1 : ((spi_transfer 255 (csHighA
      (sd_send_cmd 17 sector 255 (csLowA s)).2)).2).cursor
      = (sd_send_cmd 17 sector 255 (csLowA s)).2.cursor + 1 := rfl
  obtain ⟨ntw, twext, htwr, htwc, -, htwle, -⟩ :=
    tokenWait_spec 65535 (sd_send_cmd 17 sector 255 (csLowA s)).2
  have hf2 : ((spi_transfer 255 (csHighA
      (tokenWait 65535 (sd_send_cmd 17 sector 255 (csLowA s)).2).2)).2).cursor
      = (tokenWait 65535 (sd_send_cmd 17 sector 255 (csLowA s)).2).2.cursor + 1 := rfl
  obtain ⟨hrbr, hrbc, -⟩ := readBytes_spec 512
    (tokenWait 65535 (sd_send_cmd 17 sector 255 (csLowA s)).2).2
  have hf3 : ((spi_transfer 255 (csHighA ((spi_transfer 255 (spi_transfer 255
      (readBytes 512
        (tokenWait 65535 (sd_send_cmd 17 sector 255 (csLowA s)).2).2).2).2).2))).2).cursor
      = (readBytes 512
          (tokenWait 65535
            (sd_send_cmd 17 sector 255 (csLowA s)).2).2).2.cursor + 3 := rfl
  simp only [sd_read_sector]
  split
  · dsimp only
    omega
  · split
    · dsimp only
      omega
    · dsimp only
      omega

theorem sd_read_sector_noToken (sector : Nat) (s : SpiState)
    (hs : ∀ k, s.resp k % 256 ≠ 254) : (sd_read_sector sector s).1 = none := by
  obtain ⟨n17, p17, h17r, -, -, -, -, -, -, -⟩ :=
    sd_send_cmd_spec 17 sector 255 (csLowA s)
  have hstuck : (tokenWait 65535 (sd_send_cmd 17 sector 255 (csLowA s)).2).1
      = false := by
    apply tokenWait_noToken
    intro k
    rw [h17r, csLowA_resp]
    exact hs k
  simp only [sd_read_sector]
  by_cases h17 : (sd_send_cmd 17 sector 255 (csLowA s)).1 ≠ 0
  · rw [if_pos h17]
  · rw [if_neg h17, if_pos hstuck]

/-- The two CRC-discarding transfers in `sd_read_sector` (src/main.c:164)
form the same state transformation as two dummy clocks. -/
theorem pair_eq_dummy (x : SpiState) :
    (spi_transfer 255 (spi_transfer 255 x).2).2 = spi_send_dummy 2 x := rfl

theorem sd_read_sector_trace (sector : Nat) (s : SpiState) :
    ∃ mid r, (sd_read_sector sector s).2.trace
        = s.trace ++ (SpiEvent.csLow ::
            (mid ++ [SpiEvent.csHigh, SpiEvent.xfer 255 r])) ∧
      noCsHigh mid := by
  obtain ⟨n17, p17, h17r, h17c, h17t, -, -, -, h17x, -⟩ :=
    sd_send_cmd_spec 17 sector 255 (csLowA s)
  have h17no := sd_send_cmd_noCsHigh 17 sector 255 (csLowA s) p17 h17x
  obtain ⟨ntw, twext, htwr, htwc, htwt, -, htwx⟩ :=
    tokenWait_spec 65535 (sd_send_cmd 17 sector 255 (csLowA s)).2
  obtain ⟨hrbr, hrbc, rbext, hrbt, hrbx⟩ := readBytes_spec 512
    (tokenWait 65535 (sd_send_cmd 17 sector 255 (csLowA s)).2).2
  obtain ⟨hp2r, hp2c, p2ext, hp2t, hp2no⟩ := spi_send_dummy_spec 2
    (readBytes 512 (tokenWait 65535 (sd_send_cmd 17 sector 255 (csLowA s)).2).2).2
  simp only [sd_read_sector, pair_eq_dummy]
  set C17 := sd_send_cmd 17 sector 255 (csLowA s) with hC17
  set TW := tokenWait 65535 C17.2 with hTW
  set RB := readBytes 512 TW.2 with hRB
  set P2 := spi_send_dummy 2 RB.2 with hP2
  by_cases hc : C17.1 ≠ 0
  · rw [if_pos hc]
    refine ⟨cmdFrame 17 sector 255 (csLowA s) ++ p17,
      C17.2.resp C17.2.cursor % 256, ?_, h17no⟩
    dsimp only
    rw [spi_transfer_trace, csHighA_resp, csHighA_cursor, csHighA_trace, h17t,
      csLowA_trace]
    simp [List.append_assoc]
  · rw [if_neg hc]
    by_cases htw : TW.1 = false
    · rw [if_pos htw]
      refine ⟨(cmdFrame 17 sector 255 (csLowA s) ++ p17) ++ twext,
        TW.2.resp TW.2.cursor % 256, ?_, ?_⟩
      · dsimp only
        rw [spi_transfer_trace, csHighA_resp, csHighA_cursor, csHighA_trace,
          htwt, h17t, csLowA_trace]
        simp [List.append_assoc]
      · exact noCsHigh_append h17no (noCsHigh_of_xfers htwx)
    · rw [if_neg htw]
      refine ⟨((cmdFrame 17 sector 255 (csLowA s) ++ p17) ++ twext)
          ++ (rbext ++ p2ext),
        P2.resp P2.cursor % 256, ?_, ?_⟩
      · dsimp only
        rw [spi_transfer_trace, csHighA_resp, csHighA_cursor, csHighA_trace,
          hp2t, hrbt, htwt, h17t, csLowA_trace]
        simp [List.append_assoc]
      · exact noCsHigh_append
          (noCsHigh_append h17no (noCsHigh_of_xfers htwx))
          (noCsHigh_append (noCsHigh_of_xfers hrbx) hp2no)

theorem sd_init_success_trace (s : SpiState) (h : (sd_init s).1 = 1) :
    ∃ mid r, (sd_init s).2.trace
        = s.trace ++ (SpiEvent.csHigh ::
            (mid ++ [SpiEvent.csHigh, SpiEvent.xfer 255 r])) ∧
      noCsHigh mid := by
  obtain ⟨hdr, hdc, dext, hdt, hdno⟩ := spi_send_dummy_spec 10 (csHighA s)
  obtain ⟨n0, p0, h0r, h0c, h0t, -, -, -, h0x, -⟩ :=
    sd_send_cmd_spec 0 0 0x95 (spi_send_dummy 10 (csHighA s))
  have h0no := sd_send_cmd_noCsHigh 0 0 0x95 (spi_send_dummy 10 (csHighA s)) p0 h0x
  obtain ⟨n8, p8, h8r, h8c, h8t, -, -, -, h8x, -⟩ :=
    sd_send_cmd_spec 8 0x1AA 0x87
      (sd_send_cmd 0 0 0x95 (spi_send_dummy 10 (csHighA s))).2
  have h8no := sd_send_cmd_noCsHigh 8 0x1AA 0x87
    (sd_send_cmd 0 0 0x95 (spi_send_dummy 10 (csHighA s))).2 p8 h8x
  obtain ⟨hq1r, hq1c, q1ext, hq1t, hq1no⟩ := spi_send_dummy_spec 4
    (sd_send_cmd 8 0x1AA 0x87
      (sd_send_cmd 0 0 0x95 (spi_send_dummy 10 (csHighA s))).2).2
  obtain ⟨alext, halr, halc, halt, halno⟩ := acmd41Loop_spec 65535
    (spi_send_dummy 4 (sd_send_cmd 8 0x1AA 0x87
      (sd_send_cmd 0 0 0x95 (spi_send_dummy 10 (csHighA s))).2).2)
  obtain ⟨n58, p58, h58r, h58c, h58t, -, -, -, h58x, -⟩ :=
    sd_send_cmd_spec 58 0 0xFD
      (acmd41Loop 65535 (spi_send_dummy 4 (sd_send_cmd 8 0x1AA 0x87
        (sd_send_cmd 0 0 0x95 (spi_send_dummy 10 (csHighA s))).2).2)).2
  have h58no := sd_send_cmd_noCsHigh 58 0 0xFD
    (acmd41Loop 65535 (spi_send_dummy 4 (sd_send_cmd 8 0x1AA 0x87
      (sd_send_cmd 0 0 0x95 (spi_send_dummy 10 (csHighA s))).2).2)).2 p58 h58x
  obtain ⟨hq2r, hq2c, q2ext, hq2t, hq2no⟩ := spi_send_dummy_spec 4
    (sd_send_cmd 58 0 0xFD
      (acmd41Loop 65535 (spi_send_dummy 4 (sd_send_cmd 8 0x1AA 0x87
        (sd_send_cmd 0 0 0x95 (spi_send_dummy 10 (csHighA s))).2).2)).2).2
  simp only [sd_init, quad_eq_dummy] at h ⊢
  set T1 := spi_send_dummy 10 (csHighA s) with hT1
  set C0 := sd_send_cmd 0 0 0x95 T1 with hC0def
  set C8 := sd_send_cmd 8 0x1AA 0x87 C0.2 with hC8def
  set T4 := spi_send_dummy 4 C8.2 with hT4
  set AL := acmd41Loop 65535 T4 with hALdef
  set C58 := sd_send_cmd 58 0 0xFD AL.2 with hC58def
  set T7 := spi_send_dummy 4 C58.2 with hT7
  by_cases hb0 : C0.1 ≠ 1
  · rw [if_pos hb0] at h
    simp at h
  · rw [if_neg hb0] at h ⊢
    by_cases hb8 : C8.1 ≠ 1
    · rw [if_pos hb8] at h
      simp at h
    · rw [if_neg hb8] at h ⊢
      by_cases hbal : AL.1 = false
      · rw [if_pos hbal] at h
        simp at h
      · rw [if_neg hbal] at h ⊢
        by_cases hb58 : C58.1 ≠ 0
        · rw [if_pos hb58] at h
          simp at h
        · rw [if_neg hb58] at h ⊢
          refine ⟨dext ++ ((cmdFrame 0 0 0x95 T1 ++ p0)
              ++ ((cmdFrame 8 0x1AA 0x87 C0.2 ++ p8)
                ++ (q1ext ++ (alext
                  ++ ((cmdFrame 58 0 0xFD AL.2 ++ p58) ++ q2ext))))),
            T7.resp T7.cursor % 256, ?_, ?_⟩
          · dsimp only
            rw [spi_transfer_trace, csHighA_resp, csHighA_cursor,
              csHighA_trace, hq2t, h58t, halt, hq1t, h8t, h0t, hdt,
              csHighA_trace]
            simp [List.append_assoc]
          · refine noCsHigh_append hdno (noCsHigh_append h0no
              (noCsHigh_append h8no (noCsHigh_append hq1no
                (noCsHigh_append halno (noCsHigh_append h58no hq2no)))))

/-- A transport whose every response byte is 0x01: CMD0 and CMD8 get
their expected 0x01, but ACMD41 never answers ready (0x00). -/
def resp01 : Nat → Nat := fun _ => 1

def st01 : SpiState := ⟨resp01, 0, []⟩

/-- A transport whose every response byte is 0x00: CMD17 is accepted but
the 0xFE data token never arrives. -/
def resp00 : Nat → Nat := fun _ => 0

def st00 : SpiState := ⟨resp00, 0, []⟩

/-- A transport answering 0x01 on every exchange except exchange 41
(ACMD41's R1, answering ready 0x00) and exchange 48 (CMD58's R1,
answering 0x00), which makes `sd_init` succeed; the four bytes echoed
after CMD8's R1 (exchanges 24..27) are then 0x01 each, different from
the transmitted 0x00,0x00,0x01,0xAA pattern. -/
def respC6 : Nat → Nat := fun k => if k = 41 ∨ k = 48 then 0 else 1

def stC6 : SpiState := ⟨respC6, 0, []⟩

/-- A transport that always answers 0xFF, as an absent card would. -/
def respFF : Nat → Nat := fun _ => 255

def stFF : SpiState := ⟨respFF, 0, []⟩

/-- Claim C5: the ACMD41 polling loop and the data-token wait are bounded
by the fixed ceiling 0xFFFF = 65535, so `sd_init` and `sd_read_sector`
perform a bounded number of byte exchanges on every possible response
stream (at most 61 + 28·65535 = 1835041 resp. 529 + 65535 = 66064), and
a transport on which the awaited response byte never appears makes the
operation return failure rather than block: a stream with no 0x00 byte
leaves ACMD41 never ready and `sd_init` returns 0, and a stream with no
0xFE byte never yields a data token and `sd_read_sector` returns none. -/
theorem claim_C5 :
    (∀ s : SpiState, (sd_init s).2.cursor ≤ s.cursor + 1835041) ∧
    (∀ (sector : Nat) (s : SpiState),
      (sd_read_sector sector s).2.cursor ≤ s.cursor + 66064) ∧
    (∀ s : SpiState, (∀ k, s.resp k % 256 ≠ 0) → (sd_init s).1 = 0) ∧
    (∀ (sector : Nat) (s : SpiState),
      (∀ k, s.resp k % 256 ≠ 254) → (sd_read_sector sector s).1 = none) :=
  ⟨sd_init_cursor, sd_read_sector_cursor, sd_init_noReady,
    sd_read_sector_noToken⟩

/-- Witness for claim C5: the all-0x01 transport exhausts the ACMD41
ceiling and `sd_init` fails; the all-0x00 transport exhausts the token
ceiling and `sd_read_sector` fails. -/
theorem claim_C5_witness :
    (∀ k, st01.resp k % 256 ≠ 0) ∧ (sd_init st01).1 = 0 ∧
    (∀ k, st00.resp k % 256 ≠ 254) ∧ (sd_read_sector 0 st00).1 = none :=
  ⟨fun k => by norm_num [st01, resp01],
   claim_C5.2.2.1 st01 (fun k => by norm_num [st01, resp01]),
   fun k => by norm_num [st00, resp00],
   claim_C5.2.2.2 0 st00 (fun k => by norm_num [st00, resp00])⟩

/-- Counterexample to claim C6 as stated: on the `stC6` transport,
`sd_init` returns success (1) although the four pattern bytes echoed
after CMD8's R1 — trace events 27..30, the last four below, each
answering 0x01 — differ from the transmitted pattern bytes
0x00,0x00,0x01,0xAA visible as the MOSI bytes of events 21..24. The
driver never compares the echoed bytes, so no failure occurs. -/
theorem claim_C6_counterexample :
    (sd_init stC6).1 = 1 ∧
    ((sd_init stC6).2.trace.drop 19).take 12
      = [SpiEvent.csLow, SpiEvent.xfer 72 1, SpiEvent.xfer 0 1,
         SpiEvent.xfer 0 1, SpiEvent.xfer 1 1, SpiEvent.xfer 170 1,
         SpiEvent.xfer 135 1, SpiEvent.xfer 255 1, SpiEvent.xfer 255 1,
         SpiEvent.xfer 255 1, SpiEvent.xfer 255 1, SpiEvent.xfer 255 1] ∧
    [(1 : Nat), 1, 1, 1] ≠ [0, 0, 1, 170] := by
  decide

/-- Claim C6 (amended): after CMD8 the driver validates only the leading
R1 response byte — whenever that byte is not 0x01, `sd_init` returns
failure; the four echoed pattern bytes are clocked in but never compared
(see the counterexample, where `sd_init` succeeds with a wrong echo). -/
theorem claim_C6 (s : SpiState)
    (h8 : (sd_send_cmd 8 0x1AA 0x87
      (sd_send_cmd 0 0 0x95 (spi_send_dummy 10 (csHighA s))).2).1 ≠ 1) :
    (sd_init s).1 = 0 := by
  simp only [sd_init, quad_eq_dummy]
  by_cases h0 : (sd_send_cmd 0 0 0x95 (spi_send_dummy 10 (csHighA s))).1 ≠ 1
  · rw [if_pos h0]
  · rw [if_neg h0, if_pos h8]

/-- Witness for claim C6 (amended) on the all-0xFF transport, where
CMD8's R1 is 0xFF. -/
theorem claim_C6_witness :
    ((sd_send_cmd 8 0x1AA 0x87
      (sd_send_cmd 0 0 0x95 (spi_send_dummy 10 (csHighA stFF))).2).1 ≠ 1) ∧
    (sd_init stFF).1 = 0 :=
  ⟨by decide, claim_C6 stFF (by decide)⟩

/-- Counterexample to claim C7 as stated: the CMD0 frame that `sd_init`
sends (trace events 11..17 on the all-0xFF transport) begins with MOSI
byte 0x40 = 64, whose top bit 0x80 is clear — the command-type byte has
only bit 6 set, not "the top two bits set". -/
theorem claim_C7_counterexample :
    ((sd_init stFF).2.trace.drop 11).take 7
      = [SpiEvent.csLow, SpiEvent.xfer 64 255, SpiEvent.xfer 0 255,
         SpiEvent.xfer 0 255, SpiEvent.xfer 0 255, SpiEvent.xfer 0 255,
         SpiEvent.xfer 149 255] ∧
    64 &&& 128 = 0 := by
  decide

/-- Claim C7 (amended): every command frame is exactly 6 bytes — the
command byte `0x40 | cmd`, i.e. 64 + cmd with bit 6 set and bit 7 clear
(`(64+cmd) &&& 0xC0 = 0x40` for the 6-bit command indexes used), the
4-byte argument most-significant byte first, and the caller-supplied
checksum — followed only by 0xFF filler polls (between 1 and 8). -/
theorem claim_C7 (cmd arg crc : Nat) (s : SpiState) (hcmd : cmd < 64) :
    ∃ (n : Nat) (polls : List SpiEvent),
      (sd_send_cmd cmd arg crc s).2.trace
        = s.trace ++ (cmdFrame cmd arg crc s ++ polls) ∧
      mosis (cmdFrame cmd arg crc s)
        = [64 + cmd, arg % U32 / 2 ^ 24 % 256, arg % U32 / 2 ^ 16 % 256,
           arg % U32 / 2 ^ 8 % 256, arg % U32 % 256, crc % 256] ∧
      (64 + cmd) &&& 192 = 64 ∧
      mosis polls = List.replicate n 255 ∧ 1 ≤ n ∧ n ≤ 8 := by
  obtain ⟨n, polls, -, -, ht, hn1, hn8, hlen, hx, -⟩ :=
    sd_send_cmd_spec cmd arg crc s
  have h3 : (1 : Nat) <<< 6 = 64 := by norm_num [Nat.shiftLeft_eq]
  have hor : (64 ||| cmd) % 256 = 64 + cmd := by
    have h1 : cmd ||| (1 <<< 6) = cmd + 2 ^ 6 * 1 :=
      lor_shiftLeft_eq_add 1 6 (by omega)
    rw [Nat.lor_comm, h3] at h1
    norm_num at h1
    rw [h1, Nat.add_comm]
    exact Nat.mod_eq_of_lt (by omega)
  refine ⟨n, polls, ht, ?_, ?_, ?_, hn1, hn8⟩
  · simp only [cmdFrame, mosis, hor]
  · interval_cases cmd <;> decide
  · rw [mosis_all255 polls hx, hlen]

/-- Witness for claim C7 (amended) on CMD17 with a zero argument. -/
theorem claim_C7_witness :
    17 < 64 ∧
    ∃ (n : Nat) (polls : List SpiEvent),
      (sd_send_cmd 17 0 255 stFF).2.trace
        = stFF.trace ++ (cmdFrame 17 0 255 stFF ++ polls) ∧
      mosis (cmdFrame 17 0 255 stFF)
        = [64 + 17, 0 % U32 / 2 ^ 24 % 256, 0 % U32 / 2 ^ 16 % 256,
           0 % U32 / 2 ^ 8 % 256, 0 % U32 % 256, 255 % 256] ∧
      (64 + 17) &&& 192 = 64 ∧
      mosis polls = List.replicate n 255 ∧ 1 ≤ n ∧ n ≤ 8 :=
  ⟨by decide, claim_C7 17 0 255 stFF (by decide)⟩

/-- Counterexample to claim C8 as stated: on the successful `stC6` run,
`sd_init` issues five command frames (five chip-select assertions: CMD0,
CMD8, CMD55, ACMD41, CMD58) but the trace contains only two deassertion
events — the initial idle deselect and the single final one — so chip
select is not deasserted after each command exchange. -/
theorem claim_C8_counterexample :
    (sd_init stC6).1 = 1 ∧
    (sd_init stC6).2.trace.count SpiEvent.csLow = 5 ∧
    (sd_init stC6).2.trace.count SpiEvent.csHigh = 2 := by
  decide

/-- Claim C8 (amended): chip select is asserted when a command frame is
sent, but deasserted only once per driver operation — at every exit of
`sd_read_sector`, and at the successful end of `sd_init` (whose trace
also starts with the idle deselect) — and every deassertion is followed
by exactly one trailing 0xFF filler byte; in between, no deassertion
occurs. -/
theorem claim_C8 :
    (∀ (sector : Nat) (s : SpiState), ∃ mid r,
      (sd_read_sector sector s).2.trace
        = s.trace ++ (SpiEvent.csLow ::
            (mid ++ [SpiEvent.csHigh, SpiEvent.xfer 255 r])) ∧
      noCsHigh mid) ∧
    (∀ s : SpiState, (sd_init s).1 = 1 → ∃ mid r,
      (sd_init s).2.trace
        = s.trace ++ (SpiEvent.csHigh ::
            (mid ++ [SpiEvent.csHigh, SpiEvent.xfer 255 r])) ∧
      noCsHigh mid) :=
  ⟨sd_read_sector_trace, sd_init_success_trace⟩

/-- Witness for claim C8 (amended) on the successful `stC6` run. -/
theorem claim_C8_witness :
    (sd_init stC6).1 = 1 ∧
    ∃ mid r, (sd_init stC6).2.trace
        = stC6.trace ++ (SpiEvent.csHigh ::
            (mid ++ [SpiEvent.csHigh, SpiEvent.xfer 255 r])) ∧
      noCsHigh mid :=
  ⟨by decide, claim_C8.2 stC6 (by decide)⟩

end SdFat
